import Mathlib

/-!
Verification development for the MDN benchmark engine (`benchmarks.py`).

The embedding models the plugin discovery / capability-probing engine
(`get_methods`), the orchestration layer (`bench_product`) and the product
dispatcher (`run_benchmarks`).  External collaborators (module importing,
`get_sensor_bands`, the QAA inversion engine, the ML bench, `performance`
printing) are passed in as parameters, as the spec treats them as
out-of-scope collaborators consumed through narrow interfaces.
-/

namespace MDN

/-- Scalar values of estimate matrices: finite rationals or the IEEE special
values NaN / +inf / -inf (floats are modelled exactly enough for the
`np.isfinite` and `< 0` tests used by the code). -/
inductive RVal where
  | fin (q : ℚ)
  | nan
  | inf
  | ninf
deriving DecidableEq

/-- Python `np.isfinite` on a scalar. -/
def RVal.isfinite : RVal → Bool
  | .fin _ => true
  | _ => false

/-- The elementwise `< 0` test (NaN compares false, -inf compares true). -/
def RVal.ltzero : RVal → Bool
  | .fin q => decide (q < 0)
  | .ninf => true
  | _ => false

/-- A numeric matrix: rows of scalars. -/
abbrev Mat := List (List RVal)

/-- Python `m.shape[1]`: the column count of a (rectangular) matrix. -/
def cols (m : Mat) : Nat := (m.headD []).length

/-- Python `np.ones((r, c))`. -/
def onesMat (r c : Nat) : Mat := List.replicate r (List.replicate c (.fin 1))

/-- A named-parameter set (`**kwargs`), modelled as an ordered association
list with Python-`dict` semantics given by `dictUpdate` / `List.lookup`. -/
abbrev Params := List (String × Int)

/-- Helper of `dictUpdate`: one existing entry, with its value replaced when
the updating dictionary also binds its key. -/
def updEntry (new : List (String × α)) (p : String × α) : String × α :=
  match List.lookup p.1 new with
  | some v => (p.1, v)
  | none => p

/-- Python `dict.update`: keys already present keep their position but take
the new value; genuinely new keys are appended in order. -/
def dictUpdate (old new : List (String × α)) : List (String × α) :=
  old.map (updEntry new) ++ new.filter (fun q => !(old.any (fun p => p.1 == q.1)))

/-- Python `sensor.split('-')[0]` on the character list. -/
def splitHead : List Char → List Char
  | [] => []
  | c :: r => if c = '-' then [] else c :: splitHead r

/-- Python `sensor.split('-')[0]`: the prefixing segment before the first `'-'`. -/
def truncDash (s : String) : String := ⟨splitHead s.data⟩

/-- Substring test on character lists (Python `pat in s`). -/
def hasSub : List Char → List Char → Bool
  | [], pat => pat.isEmpty
  | c :: r, pat => pat.isPrefixOf (c :: r) || hasSub r pat

/-- Python `pat in s` for strings. -/
def strContains (s pat : String) : Bool := hasSub s.data pat.data

/-- A symbol exposed by an imported plugin module (an element of
`dir(imported)` that the CapabilityFilter may inspect).  `hasDefaultAttr`
models `hasattr(model, 'has_default')`; `run` is the callable itself, which
may raise (`.error`), return `None` (`.ok none`) or return an estimate
matrix. -/
structure Sym where
  hasDefaultAttr : Bool
  has_default : Bool
  opt_vars : List String
  model_name : Option String
  run : Mat → List Nat → String → Params → Except String (Option Mat)

/-- A registry value: `partial(model, sensor=sensor)` with
`__name__ = model_name`. -/
structure RegEntry where
  sym : Sym
  sensor : String
  name : String

/-- One probe invocation performed during discovery (the argument tuple of
`model(np.ones((1, len(wavelengths))), wavelengths, sensor, **kwargs)`). -/
structure ProbeCall where
  folder : String
  fname : String
  x : Mat
  waves : List Nat
  sensor : String
  params : Params
deriving DecidableEq

/-- Result of walking (part of) the discovery loop: the registry and the
kwargs dict (both threaded state), plus the printed diagnostics and the
probe invocations emitted by the walked segment. -/
structure DOut where
  methods : List (String × RegEntry)
  kwargs : Params
  out : List String
  probes : List ProbeCall

/-- Lines 39-40: when `has_default` is false, `kwargs.update(dict(zip(
model.opt_vars, [1]*len(model.opt_vars))))`. -/
def resolvedKw (m : Sym) (kw : Params) : Params :=
  if m.has_default = false then
    dictUpdate kw (m.opt_vars.map (fun v => (v, (1 : Int))))
  else kw

/-- Python `getattr(model, 'model_name', name)`. -/
def displayName (m : Sym) (folder : String) : String := m.model_name.getD folder

/-- Lines 30-54: processing of one `dir(imported)` symbol of one algorithm
folder.  Returns the new registry and kwargs, the printed lines and the
probe (if any) of this candidate. -/
def stepCore (waves : List Nat) (sensor : String) (debug allowOpt : Bool)
    (c : String × String × Sym) (ms : List (String × RegEntry)) (kw : Params) : DOut :=
  let folder := c.1
  let fname := c.2.1
  let m := c.2.2
  if strContains fname "model" then
    if m.hasDefaultAttr then
      if m.has_default || allowOpt then
        let kw2 := resolvedKw m kw
        let x := onesMat 1 waves.length
        match m.run x waves sensor kw2 with
        | .ok (some _) =>
          let dn := displayName m folder
          ⟨dictUpdate ms [(dn, ⟨m, sensor, dn⟩)], kw2, [],
            [⟨folder, fname, x, waves, sensor, kw2⟩]⟩
        | .ok none => ⟨ms, kw2, [], [⟨folder, fname, x, waves, sensor, kw2⟩]⟩
        | .error e =>
          ⟨ms, kw2, (if debug then [s!"Exception for function {folder}: {e}"] else []),
            [⟨folder, fname, x, waves, sensor, kw2⟩]⟩
      else
        ⟨ms, kw, (if debug then [s!"{folder} requires optimization"] else []), []⟩
    else ⟨ms, kw, [], []⟩
  else ⟨ms, kw, [], []⟩

/-- The full discovery walk over the flattened sequence of
`(folder, function-name, symbol)` candidates. -/
def discLoop (waves : List Nat) (sensor : String) (debug allowOpt : Bool) :
    List (String × String × Sym) → List (String × RegEntry) → Params → DOut
  | [], ms, kw => ⟨ms, kw, [], []⟩
  | c :: rest, ms, kw =>
    let r := stepCore waves sensor debug allowOpt c ms kw
    let t := discLoop waves sensor debug allowOpt rest r.methods r.kwargs
    ⟨t.methods, t.kwargs, r.out ++ t.out, r.probes ++ t.probes⟩

/-- A plugin folder (an algorithm unit): its name and the symbols of its
imported `model` module, in `dir()` order. -/
abbrev Layout := List (String × List (String × Sym))

/-- The two nested `for` loops of `get_methods`, flattened (there is no
per-folder state besides the folder's name). -/
def flatten : Layout → List (String × String × Sym)
  | [] => []
  | f :: rest => (f.2.map (fun p => (f.1, p.1, p.2))) ++ flatten rest

/-- Function `get_methods(wavelengths, sensor, product, debug, allow_opt, **kwargs)`
(lines 14-55).  The plugin directory content for the product is the
`layout` parameter (module importing is the PluginLoader collaborator);
the sensor is truncated at the first `'-'` before any use. -/
def get_methods (waves : List Nat) (sensor : String) (layout : Layout)
    (debug allowOpt : Bool) (kwargs : Params) : DOut :=
  discLoop waves (truncDash sensor) debug allowOpt (flatten layout) [] kwargs

/-- Ground-truth column slices (`slice(None)` or a `[a:b)` column range). -/
inductive Sl where
  | all
  | rng (a b : Nat)
deriving DecidableEq

/-- Lines 74: `est_val[~np.isfinite(est_val)] = 0`, elementwise. -/
def clampFin (v : RVal) : RVal := if v.isfinite then v else .fin 0

/-- Lines 75: `est_val[est_val < 0] = 0`, elementwise. -/
def clampNeg (v : RVal) : RVal := if v.ltzero then .fin 0 else v

/-- Lines 73-75: the chlorophyll post-processing applied to a whole
estimate matrix (non-finite elements zeroed, then negative ones). -/
def clampMat (m : Mat) : Mat := m.map (List.map (fun v => clampNeg (clampFin v)))

/-- Per-product post-processing of one estimate (lines 73-75).  A `None`
estimate makes the chlorophyll branch fail at the indexing, as in Python. -/
def postProc (product : String) (est0 : Option Mat) : Except String (Option Mat) :=
  if product = "chl" then
    match est0 with
    | none => .error "TypeError: NoneType is not subscriptable"
    | some m => .ok (some (clampMat m))
  else .ok est0

/-- Lines 77-85: the scoring block of one loop iteration.  Only the parts
that can raise are modelled; the `performance` printing is an external
collaborator.  When `slices` is absent the code asserts
`y_test.shape[1] == est_val.shape[1]` and otherwise uses the full-column
slice `{product: slice(None)}`; with explicit `slices` the product key is
looked up. -/
def scoreCheck (product : String) (silent : Bool) (y_test : Option Mat)
    (slices : Option (List (String × Sl))) (est : Option Mat) : Except String Unit :=
  if silent then .ok () else
  match y_test with
  | none => .error "TypeError: NoneType is not subscriptable"
  | some yv =>
    match slices with
    | none =>
      match est with
      | none => .error "AttributeError: NoneType has no attribute shape"
      | some em =>
        if cols yv = cols em then .ok ()
        else .error "Ambiguous y data provided - need to give slices parameter."
    | some sl =>
      match List.lookup product sl with
      | some _ => .ok ()
      | none => .error s!"KeyError: {product}"

/-- Lines 71-85: one selected registry entry's benchmark run:
`est_val = func(x_test, waves, tol=15)` (i.e. the stored callable with its
bound sensor), then product post-processing, then the scoring block. -/
def benchEntry (waves : List Nat) (product : String) (silent : Bool)
    (y_test : Option Mat) (slices : Option (List (String × Sl))) (x_test : Mat)
    (p : String × RegEntry) : Except String (Option Mat) :=
  match p.2.sym.run x_test waves p.2.sensor [("tol", 15)] with
  | .error e => .error e
  | .ok est0 =>
    match postProc product est0 with
    | .error e => .error e
    | .ok est =>
      match scoreCheck product silent y_test slices est with
      | .error e => .error e
      | .ok _ => .ok est

/-- Lines 67-88: the loop over `methods.items()` with the
`method is None or name == method` selection, accumulating
`dict(zip(lbls, ests))`. -/
def benchLoop (waves : List Nat) (product : String) (silent : Bool)
    (y_test : Option Mat) (slices : Option (List (String × Sl))) (x_test : Mat)
    (method : Option String) :
    List (String × RegEntry) → Except String (List (String × Option Mat))
  | [] => .ok []
  | p :: rest =>
    if method = none ∨ method = some p.1 then
      match benchEntry waves product silent y_test slices x_test p with
      | .error e => .error e
      | .ok est =>
        match benchLoop waves product silent y_test slices x_test method rest with
        | .error e => .error e
        | .ok tail => .ok ((p.1, est) :: tail)
    else benchLoop waves product silent y_test slices x_test method rest

/-- Line 64: `methods = get_methods(waves, sensor, product, tol=15)` (the
defaults `debug=True`, `allow_opt=False` apply). -/
def registryOf (waves : List Nat) (layoutOf : String → Layout) (sensor product : String) :
    List (String × RegEntry) :=
  (get_methods waves sensor (layoutOf product) true false [("tol", 15)]).methods

/-- Python `list(methods.keys())`. -/
def registryKeys (waves : List Nat) (layoutOf : String → Layout) (sensor product : String) :
    List String :=
  (registryOf waves layoutOf sensor product).map Prod.fst

/-- The band-count assertion message of line 62. -/
def bandMsg (sensor : String) (c w : Nat) : String :=
  "Too many features given as bands for " ++ sensor ++ ": " ++ toString c
    ++ " vs " ++ toString w

/-- The unknown-algorithm assertion message of line 65. -/
def unknownMsg (nm : String) (ks : List String) : String :=
  "Unknown algorithm \"" ++ nm ++ "\". Options are: \n" ++ toString ks

/-- Function `bench_product(args, sensor, x_test, y_test, slices, silent, product,
method)` (lines 58-88).  `waves` stands for the external
`get_sensor_bands(sensor, args)` collaborator's result and `layoutOf` for
the plugin directory of each product. -/
def bench_product (waves : List Nat) (layoutOf : String → Layout) (sensor : String)
    (x_test : Mat) (y_test : Option Mat) (slices : Option (List (String × Sl)))
    (silent : Bool) (product : String) (method : Option String) :
    Except String (List (String × Option Mat)) :=
  if silent = false ∧ y_test = none then .error "Must provide y values or set silent=True"
  else if waves.length < cols x_test then
    .error (bandMsg sensor (cols x_test) waves.length)
  else
    match method with
    | some nm =>
      if nm ∈ registryKeys waves layoutOf sensor product then
        benchLoop waves product silent y_test slices x_test (some nm)
          (registryOf waves layoutOf sensor product)
      else .error (unknownMsg nm (registryKeys waves layoutOf sensor product))
    | none =>
      benchLoop waves product silent y_test slices x_test none
        (registryOf waves layoutOf sensor product)

/-- Line 312: the guard for the analytic-inversion (QAA) orchestrator:
`len([k for k in slices if k[0] in ['a','b'] and '*' not in k and 'ad' not in k])`
is non-zero.  `k[0]` is the key's first character. -/
def qaaCond (slices : List (String × Sl)) : Bool :=
  (slices.filter (fun p =>
    (p.1.data.head? == some 'a' || p.1.data.head? == some 'b')
    && !(strContains p.1 "*") && !(strContains p.1 "ad"))).length ≠ 0

/-- Function `run_benchmarks(args, sensor, x_test, y_test, slices, silent, ...,
with_ml)` (lines 310-329).  The QAA and ML benches are external
collaborators (they wrap the QAA inversion engine and scikit-learn); their
results are the `qaaBench` / `mlBench` parameters.  The chlorophyll and
suspended-solids branches run the registry-based orchestrator
`bench_product` with the caller's slices. -/
def run_benchmarks (waves : List Nat) (layoutOf : String → Layout) (sensor : String)
    (x_test : Mat) (y_test : Option Mat) (slices : List (String × Sl)) (silent : Bool)
    (with_ml : Bool) (qaaBench mlBench : Except String (List (String × Option Mat))) :
    Except String (List (String × Option Mat)) :=
  let step1 : Except String (List (String × Option Mat)) :=
    if qaaCond slices then
      match qaaBench with
      | .error e => .error e
      | .ok r => .ok (dictUpdate [] r)
    else .ok []
  match step1 with
  | .error e => .error e
  | .ok b1 =>
    let step2 : Except String (List (String × Option Mat)) :=
      if (slices.map Prod.fst).contains "chl" then
        match bench_product waves layoutOf sensor x_test y_test (some slices) silent "chl" none with
        | .error e => .error e
        | .ok r =>
          let b2 := dictUpdate b1 r
          if with_ml then
            match mlBench with
            | .error e => .error e
            | .ok rm => .ok (dictUpdate b2 rm)
          else .ok b2
      else .ok b1
    match step2 with
    | .error e => .error e
    | .ok b2 =>
      if (slices.map Prod.fst).contains "tss" then
        match bench_product waves layoutOf sensor x_test y_test (some slices) silent "tss" none with
        | .error e => .error e
        | .ok r => .ok (dictUpdate b2 r)
      else .ok b2

/-- Left-biased overlay of two optional lookups (the key-collision policy of
iterated `dict.update`: a `some` from the later dictionary wins). -/
def firstOf (a b : Option α) : Option α :=
  match a with
  | some v => some v
  | none => b

/-- A candidate entry point for claim C1: no default parameters, one
optimized parameter `"a"`, probe succeeds. -/
def symC1 : Sym := ⟨true, false, ["a"], none, fun _ _ _ _ => .ok (some [[.fin 1]])⟩

/-- A candidate for claim C2 returning a three-column estimate. -/
def symC2 : Sym := ⟨true, true, [], none, fun _ _ _ _ => .ok (some [[.fin 1, .fin 2, .fin 3]])⟩

/-- Plugin layout for claim C2: one algorithm folder exposing `symC2`. -/
def layC2 : String → Layout := fun _ => [("alg", [("model", symC2)])]

/-- Ten-row, three-column ground truth for claim C2. -/
def yC2 : Mat := List.replicate 10 [.fin 0, .fin 0, .fin 0]

/-- Claim C4: a registrable candidate with display name "X". -/
def symC4a : Sym := ⟨true, true, [], some "X", fun _ _ _ _ => .ok (some [[.fin 1]])⟩

/-- Claim C4: a candidate with `has_default` false and the same display
name "X". -/
def symC4b : Sym := ⟨true, false, ["p"], some "X", fun _ _ _ _ => .ok (some [[.fin 1]])⟩

/-- A candidate for claim C8 whose output contains a negative element, a
NaN and the value 3.2 (= 16/5). -/
def symC8 : Sym := ⟨true, true, [], none, fun _ _ _ _ => .ok (some [[.fin (-1), .nan, .fin (mkRat 16 5)]])⟩

/-- Plugin layout for claim C8. -/
def layC8 : String → Layout := fun _ => [("alg", [("model", symC8)])]

/-- A candidate with defaults whose probe succeeds (claim C3). -/
def symC3 : Sym := ⟨true, true, [], none, fun _ _ _ _ => .ok (some [[.fin 1]])⟩

/-- A candidate whose probe always raises (claim C5). -/
def symC5e : Sym := ⟨true, true, [], none, fun _ _ _ _ => .error "boom"⟩

/-- A healthy candidate probed after the raising one (claim C5). -/
def symC5o : Sym := ⟨true, true, [], none, fun _ _ _ _ => .ok (some [[.fin 2]])⟩

/-- A registrable candidate for claim C7. -/
def symC7 : Sym := ⟨true, true, [], none, fun _ _ _ _ => .ok (some [[.fin 4]])⟩

/-- Plugin layout for claim C7. -/
def layC7 : String → Layout := fun _ => [("alg", [("model", symC7)])]

/-- A suspended-solids candidate for claim C8's no-post-processing part. -/
def symC8t : Sym := ⟨true, true, [], none, fun _ _ _ _ => .ok (some [[.fin 5]])⟩

/-- Plugin layout for claim C8's no-post-processing part. -/
def layC8t : String → Layout := fun _ => [("alg", [("model", symC8t)])]

/-- A registrable candidate for claim C10. -/
def symC10 : Sym := ⟨true, true, [], none, fun _ _ _ _ => .ok (some [[.fin 6]])⟩

/-- Plugin layout for claim C10. -/
def layC10 : Layout := [("alg", [("model", symC10)])]

/-! ### Association-list lemmas for the Python-`dict` model -/

theorem lookup_append {α : Type} (k : String) (xs ys : List (String × α)) :
    List.lookup k (xs ++ ys) = firstOf (List.lookup k xs) (List.lookup k ys) := by
  induction xs with
  | nil => simp [List.lookup, firstOf]
  | cons p rest ih =>
    obtain ⟨a, b⟩ := p
    cases hab : (k == a) <;> simp [List.lookup, hab, ih, firstOf]

theorem lookup_mem {α : Type} {k : String} {v : α} :
    ∀ {l : List (String × α)}, List.lookup k l = some v → (k, v) ∈ l := by
  intro l
  induction l with
  | nil => intro h; simp [List.lookup] at h
  | cons p rest ih =>
    obtain ⟨a, b⟩ := p
    intro h
    cases hab : (k == a) with
    | true =>
      have ha : k = a := eq_of_beq hab
      simp [List.lookup, hab] at h
      subst ha; subst h
      exact List.mem_cons_self ..
    | false =>
      simp [List.lookup, hab] at h
      exact List.mem_cons_of_mem _ (ih h)

theorem lookup_mapUpd {α : Type} (k : String) (a b : List (String × α)) :
    List.lookup k (a.map (updEntry b)) =
      (match List.lookup k a with
       | some w => some ((List.lookup k b).getD w)
       | none => none) := by
  induction a with
  | nil => simp [List.lookup]
  | cons p rest ih =>
    obtain ⟨x, y⟩ := p
    cases hkx : (k == x) with
    | true =>
      have hk : k = x := eq_of_beq hkx
      subst hk
      cases hx : List.lookup k b <;>
        simp [List.lookup, updEntry, hx]
    | false =>
      cases hx : List.lookup x b <;>
        simp [List.lookup, updEntry, hkx, hx, ih]

theorem lookup_eq_none_forall {α : Type} {k : String} {l : List (String × α)}
    (h : List.lookup k l = none) : ∀ p ∈ l, (k == p.1) = false := by
  intro p hp
  have := (List.lookup_eq_none_iff.mp h) p hp
  simpa using this

theorem lookup_filter_nmem {α : Type} (k : String) (a b : List (String × α))
    (h : List.lookup k a = none) :
    List.lookup k (b.filter (fun q => !(a.any (fun p => p.1 == q.1)))) =
      List.lookup k b := by
  induction b with
  | nil => simp
  | cons q rest ih =>
    obtain ⟨x, y⟩ := q
    cases hkx : (k == x) with
    | true =>
      have hk : k = x := eq_of_beq hkx
      subst hk
      have hany : (a.any (fun p => p.1 == k)) = false := by
        rw [List.any_eq_false]
        intro p hp hc
        have h1 : (k == p.1) = false := lookup_eq_none_forall h p hp
        have h2 : p.1 = k := eq_of_beq hc
        rw [h2] at h1
        simp at h1
      simp [List.filter, hany, List.lookup]
    | false =>
      by_cases hdrop : (a.any (fun p => p.1 == x)) = true
      · simp [List.filter, hdrop, List.lookup, hkx, ih]
      · simp only [Bool.not_eq_true] at hdrop
        simp [List.filter, hdrop, List.lookup, hkx, ih]

theorem firstOf_none {α} (a : Option α) : firstOf a none = a := by
  cases a <;> rfl

/-- Lookup in an updated dictionary: the updating dictionary wins. -/
theorem lookup_dictUpdate {α : Type} (k : String) (a b : List (String × α)) :
    List.lookup k (dictUpdate a b) = firstOf (List.lookup k b) (List.lookup k a) := by
  unfold dictUpdate
  rw [lookup_append, lookup_mapUpd]
  cases ha : List.lookup k a with
  | none =>
    simp [firstOf, lookup_filter_nmem k a b ha]
    cases List.lookup k b <;> rfl
  | some w => cases hb : List.lookup k b <;> simp [firstOf, hb]

theorem dictUpdate_nil {α : Type} (b : List (String × α)) : dictUpdate [] b = b := by
  unfold dictUpdate
  simp

/-- Python `dict(zip(opt_vars, [1]*len(opt_vars)))` maps exactly the listed names
to 1. -/
theorem lookup_map_one (k : String) (l : List String) :
    List.lookup k (l.map (fun v => (v, (1 : Int)))) =
      if k ∈ l then some 1 else none := by
  induction l with
  | nil => simp
  | cons x rest ih =>
    cases hkx : (k == x) with
    | true =>
      have hk : k = x := eq_of_beq hkx
      subst hk
      simp [List.lookup]
    | false =>
      have hk : ¬(k = x) := by simpa using hkx
      simp [List.lookup, hkx, ih, hk]

/-! ### Sensor truncation -/

theorem splitHead_append (l1 l2 : List Char) :
    splitHead (l1 ++ '-' :: l2) = splitHead l1 := by
  induction l1 with
  | nil => simp [splitHead]
  | cons c r ih =>
    by_cases hc : c = '-' <;> simp [splitHead, hc, ih]

/-- Appending any `'-'`-led suffix does not change the truncated sensor. -/
theorem truncDash_append (s t : String) :
    truncDash (s ++ "-" ++ t) = truncDash s := by
  have hd : (s ++ "-" ++ t).data = s.data ++ '-' :: t.data := by
    show (s.data ++ "-".data) ++ t.data = s.data ++ '-' :: t.data
    simp
  unfold truncDash
  rw [hd, splitHead_append]

/-! ### Chlorophyll clamping -/

/-- Each clamped element is finite and non-negative. -/
theorem clamp_val (v : RVal) :
    (clampNeg (clampFin v)).isfinite = true ∧ (clampNeg (clampFin v)).ltzero = false := by
  cases v with
  | fin q =>
    by_cases hq : q < 0
    · simp [clampFin, clampNeg, RVal.isfinite, RVal.ltzero, hq]
    · simp [clampFin, clampNeg, RVal.isfinite, RVal.ltzero, hq]
  | nan => simp [clampFin, clampNeg, RVal.isfinite, RVal.ltzero]
  | inf => simp [clampFin, clampNeg, RVal.isfinite, RVal.ltzero]
  | ninf => simp [clampFin, clampNeg, RVal.isfinite, RVal.ltzero]

theorem mem_clampMat {m : Mat} :
    ∀ row ∈ clampMat m, ∀ v ∈ row, v.isfinite = true ∧ v.ltzero = false := by
  intro row hrow v hv
  unfold clampMat at hrow
  obtain ⟨r0, _, hr0⟩ := List.mem_map.mp hrow
  subst hr0
  obtain ⟨v0, _, hv0⟩ := List.mem_map.mp hv
  subst hv0
  exact clamp_val v0

/-- Clamping preserves the column count. -/
theorem cols_clampMat (m : Mat) : cols (clampMat m) = cols m := by
  cases m with
  | nil => rfl
  | cons r rest => simp [clampMat, cols]

/-! ### Discovery-loop lemmas -/

theorem fst_updEntry {α : Type} (b : List (String × α)) (p : String × α) :
    (updEntry b p).1 = p.1 := by
  unfold updEntry
  cases List.lookup p.1 b <;> rfl

theorem snd_mem_dictUpdate {α : Type} (a b : List (String × α)) :
    ∀ r ∈ dictUpdate a b, (∃ p ∈ a, r.2 = p.2) ∨ (∃ q ∈ b, r.2 = q.2) := by
  intro r hr
  unfold dictUpdate at hr
  rcases List.mem_append.mp hr with hmap | hfil
  · obtain ⟨p, hp, hpr⟩ := List.mem_map.mp hmap
    subst hpr
    unfold updEntry
    cases hx : List.lookup p.1 b with
    | none => exact Or.inl ⟨p, hp, rfl⟩
    | some v => exact Or.inr ⟨(p.1, v), lookup_mem hx, rfl⟩
  · exact Or.inr ⟨r, (List.mem_filter.mp hfil).1, rfl⟩

theorem keys_dictUpdate_single {α : Type} (ms : List (String × α)) (k : String) (v : α) :
    (dictUpdate ms [(k, v)]).map Prod.fst =
      if ms.any (fun p => p.1 == k) then ms.map Prod.fst
      else ms.map Prod.fst ++ [k] := by
  unfold dictUpdate
  have hmap : (ms.map (updEntry [(k, v)])).map Prod.fst = ms.map Prod.fst := by
    rw [List.map_map]
    exact List.map_congr_left (fun p _ => fst_updEntry _ p)
  by_cases hany : (ms.any (fun p => p.1 == k)) = true
  · simp [List.filter, hany, hmap]
  · simp only [Bool.not_eq_true] at hany
    simp [List.filter, hany, hmap]

theorem nodup_keys_dictUpdate_single {α : Type} (ms : List (String × α)) (k : String) (v : α)
    (h : (ms.map Prod.fst).Nodup) : ((dictUpdate ms [(k, v)]).map Prod.fst).Nodup := by
  rw [keys_dictUpdate_single]
  by_cases hany : (ms.any (fun p => p.1 == k)) = true
  · simpa [hany] using h
  · simp only [Bool.not_eq_true] at hany
    have hk : k ∉ ms.map Prod.fst := by
      intro hmem
      obtain ⟨p, hp, hpk⟩ := List.mem_map.mp hmem
      have := (List.any_eq_false.mp hany) p hp
      rw [hpk] at this
      simp at this
    rw [hany, if_neg (by simp), List.nodup_append]
    exact ⟨h, List.nodup_singleton k, by
      intro a haa hab
      rw [List.mem_singleton.mp hab] at haa
      exact hk haa⟩

/-- The discovery walk over `cs ++ ds` runs `cs` first and `ds` from the
resulting state, concatenating diagnostics and probe traces. -/
theorem discLoop_append (waves : List Nat) (sensor : String) (debug allowOpt : Bool)
    (cs ds : List (String × String × Sym)) (ms : List (String × RegEntry)) (kw : Params) :
    discLoop waves sensor debug allowOpt (cs ++ ds) ms kw =
      (let r := discLoop waves sensor debug allowOpt cs ms kw
       let t := discLoop waves sensor debug allowOpt ds r.methods r.kwargs
       ⟨t.methods, t.kwargs, r.out ++ t.out, r.probes ++ t.probes⟩) := by
  induction cs generalizing ms kw with
  | nil => simp [discLoop]
  | cons c rest ih =>
    simp only [List.cons_append, discLoop, List.append_eq]
    rw [ih]
    simp [List.append_assoc]

/-- Branch shape of `stepCore`: the registry is unchanged or receives one
keyed insertion. -/
theorem stepCore_methods_shape (waves : List Nat) (sensor : String) (debug allowOpt : Bool)
    (c : String × String × Sym) (ms : List (String × RegEntry)) (kw : Params) :
    (stepCore waves sensor debug allowOpt c ms kw).methods = ms ∨
      ∃ k v, (stepCore waves sensor debug allowOpt c ms kw).methods = dictUpdate ms [(k, v)] := by
  simp only [stepCore]
  split
  · split
    · split
      · split
        · exact Or.inr ⟨_, _, rfl⟩
        · exact Or.inl rfl
        · exact Or.inl rfl
      · exact Or.inl rfl
    · exact Or.inl rfl
  · exact Or.inl rfl

/-- Registry keys stay `Nodup` along the discovery walk. -/
theorem discLoop_nodup (waves : List Nat) (sensor : String) (debug allowOpt : Bool)
    (l : List (String × String × Sym)) :
    ∀ ms kw, ((ms : List (String × RegEntry)).map Prod.fst).Nodup →
      (((discLoop waves sensor debug allowOpt l ms kw).methods).map Prod.fst).Nodup := by
  induction l with
  | nil => intro ms kw h; simpa [discLoop] using h
  | cons c rest ih =>
    intro ms kw h
    simp only [discLoop]
    apply ih
    rcases stepCore_methods_shape waves sensor debug allowOpt c ms kw with hs | ⟨k, v, hs⟩
    · rw [hs]; exact h
    · rw [hs]; exact nodup_keys_dictUpdate_single ms k v h

/-- Every registry entry and every probe produced by the walk carries the
sensor the walk was given. -/
theorem discLoop_sensor_inv (waves : List Nat) (sensor : String) (debug allowOpt : Bool)
    (l : List (String × String × Sym)) :
    ∀ ms kw, (∀ p ∈ (ms : List (String × RegEntry)), p.2.sensor = sensor) →
      (∀ p ∈ (discLoop waves sensor debug allowOpt l ms kw).methods, p.2.sensor = sensor) ∧
      (∀ pc ∈ (discLoop waves sensor debug allowOpt l ms kw).probes, pc.sensor = sensor) := by
  induction l with
  | nil =>
    intro ms kw h
    constructor
    · simpa [discLoop] using h
    · simp [discLoop]
  | cons c rest ih =>
    intro ms kw h
    have hstep : (∀ p ∈ (stepCore waves sensor debug allowOpt c ms kw).methods,
        p.2.sensor = sensor) ∧
        (∀ pc ∈ (stepCore waves sensor debug allowOpt c ms kw).probes, pc.sensor = sensor) := by
      simp only [stepCore]
      split
      · split
        · split
          · split
            · constructor
              · intro p hp
                rcases snd_mem_dictUpdate _ _ p hp with ⟨q, hq, hpq⟩ | ⟨q, hq, hpq⟩
                · rw [hpq]; exact h q hq
                · rw [List.mem_singleton.mp hq] at hpq
                  rw [hpq]
              · intro pc hpc
                rw [List.mem_singleton.mp hpc]
            · exact ⟨h, by intro pc hpc; rw [List.mem_singleton.mp hpc]⟩
            · exact ⟨h, by intro pc hpc; rw [List.mem_singleton.mp hpc]⟩
          · exact ⟨h, by intro pc hpc; simp at hpc⟩
        · exact ⟨h, by intro pc hpc; simp at hpc⟩
      · exact ⟨h, by intro pc hpc; simp at hpc⟩
    simp only [discLoop]
    constructor
    · exact (ih _ _ hstep.1).1
    · intro pc hpc
      rcases List.mem_append.mp hpc with h1 | h2
      · exact hstep.2 pc h1
      · exact (ih _ _ hstep.1).2 pc h2

/-- A candidate whose gate fails (`has_default` false, optimization-mode
disabled) changes nothing: no probe, no registration, no kwargs change —
only the diagnostic (for a "model" symbol carrying the attribute, with
debug set). -/
theorem stepCore_skip (waves : List Nat) (sensor : String) (debug : Bool)
    (folder fname : String) (m : Sym) (ms : List (String × RegEntry)) (kw : Params)
    (ha : m.hasDefaultAttr = true) (hd : m.has_default = false) :
    stepCore waves sensor debug false (folder, fname, m) ms kw =
      ⟨ms, kw,
        (if strContains fname "model" then
          (if debug then [s!"{folder} requires optimization"] else []) else []), []⟩ := by
  by_cases hn : strContains fname "model" = true
  · simp [stepCore, hn, ha, hd]
  · simp only [Bool.not_eq_true] at hn
    simp [stepCore, hn]

/-- A gated candidate whose probe returns a non-`None` value is registered
under its display name, with the sensor bound in and the display name as
the callable's name attribute. -/
theorem stepCore_ok_some (waves : List Nat) (sensor : String) (debug allowOpt : Bool)
    (folder fname : String) (m : Sym) (ms : List (String × RegEntry)) (kw : Params) (v : Mat)
    (hn : strContains fname "model" = true) (ha : m.hasDefaultAttr = true)
    (hgate : (m.has_default || allowOpt) = true)
    (hr : m.run (onesMat 1 waves.length) waves sensor (resolvedKw m kw) = .ok (some v)) :
    stepCore waves sensor debug allowOpt (folder, fname, m) ms kw =
      ⟨dictUpdate ms [(displayName m folder, ⟨m, sensor, displayName m folder⟩)],
        resolvedKw m kw, [],
        [⟨folder, fname, onesMat 1 waves.length, waves, sensor, resolvedKw m kw⟩]⟩ := by
  simp [stepCore, hn, ha, hgate, hr]

/-- A gated candidate whose probe returns `None` is silently not
registered (but was probed). -/
theorem stepCore_ok_none (waves : List Nat) (sensor : String) (debug allowOpt : Bool)
    (folder fname : String) (m : Sym) (ms : List (String × RegEntry)) (kw : Params)
    (hn : strContains fname "model" = true) (ha : m.hasDefaultAttr = true)
    (hgate : (m.has_default || allowOpt) = true)
    (hr : m.run (onesMat 1 waves.length) waves sensor (resolvedKw m kw) = .ok none) :
    stepCore waves sensor debug allowOpt (folder, fname, m) ms kw =
      ⟨ms, resolvedKw m kw, [],
        [⟨folder, fname, onesMat 1 waves.length, waves, sensor, resolvedKw m kw⟩]⟩ := by
  simp [stepCore, hn, ha, hgate, hr]

/-- A gated candidate whose probe raises is excluded: the error is
swallowed, logged (with the algorithm name and error text) only when debug
is set, and the registry is unchanged. -/
theorem stepCore_error (waves : List Nat) (sensor : String) (debug allowOpt : Bool)
    (folder fname : String) (m : Sym) (ms : List (String × RegEntry)) (kw : Params) (e : String)
    (hn : strContains fname "model" = true) (ha : m.hasDefaultAttr = true)
    (hgate : (m.has_default || allowOpt) = true)
    (hr : m.run (onesMat 1 waves.length) waves sensor (resolvedKw m kw) = .error e) :
    stepCore waves sensor debug allowOpt (folder, fname, m) ms kw =
      ⟨ms, resolvedKw m kw,
        (if debug then [s!"Exception for function {folder}: {e}"] else []),
        [⟨folder, fname, onesMat 1 waves.length, waves, sensor, resolvedKw m kw⟩]⟩ := by
  simp [stepCore, hn, ha, hgate, hr]

/-! ### Orchestrator-loop lemmas -/

/-- With a specific requested method whose name is not among the entries,
the loop invokes nothing and yields the empty result. -/
theorem benchLoop_skip (waves : List Nat) (product : String) (silent : Bool)
    (y_test : Option Mat) (slices : Option (List (String × Sl))) (x_test : Mat)
    (nm : String) :
    ∀ l : List (String × RegEntry), nm ∉ l.map Prod.fst →
      benchLoop waves product silent y_test slices x_test (some nm) l = .ok [] := by
  intro l
  induction l with
  | nil => intro _; rfl
  | cons p rest ih =>
    intro h
    have h1 : nm ≠ p.1 := by
      intro hc
      exact h (by simp [hc])
    have h2 : nm ∉ rest.map Prod.fst := by
      intro hc
      exact h (by simp [hc])
    simp only [benchLoop]
    rw [if_neg]
    · exact ih h2
    · rintro (hc | hc)
      · exact Option.noConfusion hc
      · injection hc with hc'
        exact h1 hc'

/-- With a specific requested method present exactly once among the keys,
a successful loop returns exactly the one entry carrying that name. -/
theorem benchLoop_single (waves : List Nat) (product : String) (silent : Bool)
    (y_test : Option Mat) (slices : Option (List (String × Sl))) (x_test : Mat)
    (nm : String) :
    ∀ l : List (String × RegEntry), (l.map Prod.fst).Nodup → nm ∈ l.map Prod.fst →
      ∀ res, benchLoop waves product silent y_test slices x_test (some nm) l = .ok res →
        ∃ v, res = [(nm, v)] := by
  intro l
  induction l with
  | nil => intro _ hmem; simp at hmem
  | cons p rest ih =>
    intro hnd hmem res hok
    rw [List.map_cons] at hnd hmem
    have hnd2 := List.nodup_cons.mp hnd
    by_cases hp : nm = p.1
    · have hrest : nm ∉ rest.map Prod.fst := by
        rw [hp]; exact hnd2.1
      simp only [benchLoop] at hok
      rw [if_pos (Or.inr (by rw [hp]))] at hok
      cases hbe : benchEntry waves product silent y_test slices x_test p with
      | error e => rw [hbe] at hok; exact Except.noConfusion hok
      | ok est =>
        rw [hbe, benchLoop_skip waves product silent y_test slices x_test nm rest hrest] at hok
        have : res = [(p.1, est)] := by
          injection hok with h'
          exact h'.symm
        exact ⟨est, by rw [this, hp]⟩
    · simp only [benchLoop] at hok
      rw [if_neg] at hok
      · have hmem' : nm ∈ rest.map Prod.fst := by
          rcases List.mem_cons.mp hmem with h1 | h2
          · exact absurd h1 hp
          · exact h2
        exact ih hnd2.2 hmem' res hok
      · rintro (hc | hc)
        · exact Option.noConfusion hc
        · exact hp (by injection hc)

/-- Discovery over a single-candidate layout whose gated probe succeeds:
the registry is exactly the one bound entry. -/
theorem get_methods_single (waves : List Nat) (sensor : String) (kwargs : Params)
    (debug allowOpt : Bool) (folder fname : String) (m : Sym) (v : Mat)
    (hn : strContains fname "model" = true) (ha : m.hasDefaultAttr = true)
    (hgate : (m.has_default || allowOpt) = true)
    (hp : m.run (onesMat 1 waves.length) waves (truncDash sensor) (resolvedKw m kwargs)
      = .ok (some v)) :
    (get_methods waves sensor [(folder, [(fname, m)])] debug allowOpt kwargs).methods
      = [(displayName m folder, ⟨m, truncDash sensor, displayName m folder⟩)] := by
  unfold get_methods
  have hfl : flatten [(folder, [(fname, m)])] = [(folder, fname, m)] := by
    simp [flatten]
  rw [hfl]
  simp only [discLoop]
  rw [stepCore_ok_some _ _ _ _ _ _ _ _ _ v hn ha hgate hp]
  simp [discLoop, dictUpdate_nil]

/-- The orchestrator over a single-candidate layout whose probe succeeds:
the result is the bound entry's benchmark outcome under its display name. -/
theorem bench_product_single (waves : List Nat) (layoutOf : String → Layout)
    (sensor : String) (x_test : Mat) (y_test : Option Mat)
    (slices : Option (List (String × Sl))) (silent : Bool) (product : String)
    (method : Option String) (folder fname : String) (m : Sym) (pv : Mat)
    (hs : ¬(silent = false ∧ y_test = none)) (hc : cols x_test ≤ waves.length)
    (hl : layoutOf product = [(folder, [(fname, m)])])
    (hn : strContains fname "model" = true) (ha : m.hasDefaultAttr = true)
    (hd : m.has_default = true)
    (hp : m.run (onesMat 1 waves.length) waves (truncDash sensor) [("tol", 15)]
      = .ok (some pv))
    (hm : method = none ∨ method = some (displayName m folder)) :
    bench_product waves layoutOf sensor x_test y_test slices silent product method =
      (match benchEntry waves product silent y_test slices x_test
          (displayName m folder, ⟨m, truncDash sensor, displayName m folder⟩) with
       | .error e => .error e
       | .ok est => .ok [(displayName m folder, est)]) := by
  have hrkw : resolvedKw m [("tol", 15)] = [("tol", 15)] := by
    simp [resolvedKw, hd]
  have hro : registryOf waves layoutOf sensor product =
      [(displayName m folder, ⟨m, truncDash sensor, displayName m folder⟩)] := by
    unfold registryOf
    rw [hl]
    exact get_methods_single waves sensor [("tol", 15)] true false folder fname m pv
      hn ha (by rw [hd]; rfl) (by rw [hrkw]; exact hp)
  have hks : registryKeys waves layoutOf sensor product = [displayName m folder] := by
    unfold registryKeys
    rw [hro]
    rfl
  unfold bench_product
  rw [if_neg hs, if_neg (by omega)]
  rcases hm with hm | hm <;> rw [hm]
  · rw [hro]
    cases hbe : benchEntry waves product silent y_test slices x_test
        (displayName m folder, ⟨m, truncDash sensor, displayName m folder⟩) <;>
      simp [benchLoop, hbe]
  · rw [hks, hro]
    cases hbe : benchEntry waves product silent y_test slices x_test
        (displayName m folder, ⟨m, truncDash sensor, displayName m folder⟩) <;>
      simp [benchLoop, hbe]

/-- Every successful chlorophyll bench entry is a clamped matrix. -/
theorem benchEntry_chl_ok (waves : List Nat) (silent : Bool) (y_test : Option Mat)
    (slices : Option (List (String × Sl))) (x_test : Mat) (p : String × RegEntry)
    (est : Option Mat)
    (h : benchEntry waves "chl" silent y_test slices x_test p = .ok est) :
    ∃ m0, est = some (clampMat m0) := by
  unfold benchEntry at h
  cases hrun : p.2.sym.run x_test waves p.2.sensor [("tol", 15)] with
  | error e => rw [hrun] at h; exact Except.noConfusion h
  | ok est0 =>
    rw [hrun] at h
    cases est0 with
    | none => simp [postProc] at h
    | some m0 =>
      simp [postProc] at h
      cases hsc : scoreCheck "chl" silent y_test slices (some (clampMat m0)) with
      | error e => rw [hsc] at h; exact Except.noConfusion h
      | ok u =>
        rw [hsc] at h
        injection h with h'
        exact ⟨m0, h'.symm⟩

/-- Every entry of a successful chlorophyll loop result is a clamped
matrix. -/
theorem benchLoop_chl_ok (waves : List Nat) (silent : Bool) (y_test : Option Mat)
    (slices : Option (List (String × Sl))) (x_test : Mat) (method : Option String) :
    ∀ (l : List (String × RegEntry)) res,
      benchLoop waves "chl" silent y_test slices x_test method l = .ok res →
      ∀ p ∈ res, ∃ m0, p.2 = some (clampMat m0) := by
  intro l
  induction l with
  | nil =>
    intro res h p hp
    simp only [benchLoop] at h
    injection h with h'
    rw [← h'] at hp
    simp at hp
  | cons q rest ih =>
    intro res h p hp
    simp only [benchLoop] at h
    by_cases hsel : method = none ∨ method = some q.1
    · rw [if_pos hsel] at h
      cases hbe : benchEntry waves "chl" silent y_test slices x_test q with
      | error e => rw [hbe] at h; exact Except.noConfusion h
      | ok est =>
        rw [hbe] at h
        cases htl : benchLoop waves "chl" silent y_test slices x_test method rest with
        | error e => rw [htl] at h; exact Except.noConfusion h
        | ok tail =>
          rw [htl] at h
          injection h with h'
          rw [← h'] at hp
          rcases List.mem_cons.mp hp with h1 | h2
          · rw [h1]
            exact benchEntry_chl_ok waves silent y_test slices x_test q est hbe
          · exact ih tail htl p h2
    · rw [if_neg hsel] at h
      exact ih res h p hp

/-! ### Claim C1 -/

/-- C1 counterexample: with optimization-mode enabled, a caller-supplied
value 5 for the opt_vars name "a" does NOT take precedence: the single
probe performed by discovery receives the synthesized placeholder 1 for
"a" (line 40 runs `kwargs.update(dict(zip(opt_vars, [1]*...)))`, so the
placeholders overwrite the caller's values). -/
theorem C1_counterexample :
    ((get_methods [443] "OLI" [("alg", [("model", symC1)])] true true
        [("a", 5)]).probes.map (fun pc => List.lookup "a" pc.params)) = [some 1] ∧
      some (1 : Int) ≠ some (5 : Int) :=
  ⟨rfl, by decide⟩

/-- C1 (amended): for a gated candidate without defaults, the probe is
invoked with the parameter set in which every name in `opt_vars` maps to
the placeholder 1 — overriding any caller-supplied value — while names
outside `opt_vars` keep the caller's values. -/
theorem C1_theorem (waves : List Nat) (sensor : String) (debug : Bool)
    (folder fname : String) (m : Sym) (ms : List (String × RegEntry)) (kw : Params)
    (hn : strContains fname "model" = true) (ha : m.hasDefaultAttr = true)
    (hd : m.has_default = false) :
    (stepCore waves sensor debug true (folder, fname, m) ms kw).probes =
      [⟨folder, fname, onesMat 1 waves.length, waves, sensor, resolvedKw m kw⟩] ∧
    ∀ n, List.lookup n (resolvedKw m kw) =
      if n ∈ m.opt_vars then some (1 : Int) else List.lookup n kw := by
  have hgate : (m.has_default || true) = true := by simp
  constructor
  · cases hr : m.run (onesMat 1 waves.length) waves sensor (resolvedKw m kw) with
    | error e =>
      rw [stepCore_error waves sensor debug true folder fname m ms kw e hn ha hgate hr]
    | ok o =>
      cases o with
      | none => rw [stepCore_ok_none waves sensor debug true folder fname m ms kw hn ha hgate hr]
      | some v =>
        rw [stepCore_ok_some waves sensor debug true folder fname m ms kw v hn ha hgate hr]
  · intro n
    unfold resolvedKw
    rw [if_pos hd, lookup_dictUpdate, lookup_map_one]
    by_cases hmem : n ∈ m.opt_vars
    · simp [hmem, firstOf]
    · simp [hmem, firstOf]

/-- C1 witness: the amended statement evaluated on the concrete candidate
`symC1` with caller parameter `a = 5`. -/
theorem C1_witness :
    (stepCore [443] "OLI" true true ("alg", "model", symC1) [] [("a", 5)]).probes =
      [⟨"alg", "model", onesMat 1 1, [443], "OLI", resolvedKw symC1 [("a", 5)]⟩] ∧
    ∀ n, List.lookup n (resolvedKw symC1 [("a", 5)]) =
      if n ∈ symC1.opt_vars then some (1 : Int) else List.lookup n [("a", (5 : Int))] :=
  C1_theorem [443] "OLI" true "alg" "model" symC1 [] [("a", 5)] rfl rfl rfl

/-! ### Claim C2 -/

/-- C2 counterexample: scoring enabled (silent = false), no slice mapping,
ground truth of shape 10 × 3 (more than one column) — yet `bench_product`
does NOT raise: the registered algorithm produces a three-column estimate,
the code's check `y_test.shape[1] == est_val.shape[1]` passes, and the run
returns normally. -/
theorem C2_counterexample :
    bench_product [443] layC2 "OLI" [[.fin 1]] (some yC2) none false "chl" none
      = .ok [("alg", some [[.fin 1, .fin 2, .fin 3]])] ∧ cols yC2 = 3 :=
  ⟨rfl, rfl⟩

/-- C2 (amended): with scoring enabled and no slice mapping, the run
raises the ambiguity error exactly when the ground-truth column count
differs from the estimate's column count; when they are equal — even with
more than one ground-truth column — a full-column slice is assumed and the
run proceeds. -/
theorem C2_theorem (waves : List Nat) (layoutOf : String → Layout) (sensor : String)
    (x_test : Mat) (Y : Mat) (folder fname : String) (m : Sym) (pv est : Mat)
    (hc : cols x_test ≤ waves.length)
    (hl : layoutOf "chl" = [(folder, [(fname, m)])])
    (hn : strContains fname "model" = true) (ha : m.hasDefaultAttr = true)
    (hd : m.has_default = true)
    (hp : m.run (onesMat 1 waves.length) waves (truncDash sensor) [("tol", 15)]
      = .ok (some pv))
    (hx : m.run x_test waves (truncDash sensor) [("tol", 15)] = .ok (some est)) :
    bench_product waves layoutOf sensor x_test (some Y) none false "chl" none =
      (if cols Y = cols est then
        .ok [(displayName m folder, some (clampMat est))]
       else .error "Ambiguous y data provided - need to give slices parameter.") := by
  rw [bench_product_single waves layoutOf sensor x_test (some Y) none false "chl" none
    folder fname m pv (by simp) hc hl hn ha hd hp (Or.inl rfl)]
  by_cases hcols : cols Y = cols est
  · simp [benchEntry, hx, postProc, scoreCheck, cols_clampMat, hcols]
  · simp [benchEntry, hx, postProc, scoreCheck, cols_clampMat, hcols]

/-- C2 witness: the amended statement evaluated on `symC2` with the
10 × 3 ground truth (columns match, so the run proceeds). -/
theorem C2_witness :
    bench_product [443] layC2 "OLI" [[.fin 1]] (some yC2) none false "chl" none =
      (if cols yC2 = cols [[RVal.fin 1, RVal.fin 2, RVal.fin 3]] then
        .ok [(displayName symC2 "alg", some (clampMat [[.fin 1, .fin 2, .fin 3]]))]
       else .error "Ambiguous y data provided - need to give slices parameter.") :=
  C2_theorem [443] layC2 "OLI" [[.fin 1]] yC2 "alg" "model" symC2
    [[.fin 1, .fin 2, .fin 3]] [[.fin 1, .fin 2, .fin 3]]
    (by decide) rfl rfl rfl rfl rfl rfl

/-! ### Claim C3 -/

/-- C3: a candidate passing the has_default/optimization gate is probed
exactly once with the all-ones 1 × len(wavelengths) matrix, the wavelength
set, the (truncated) sensor and the resolved named parameters; it is
registered — under its `model_name` override, else the folder name, with
the sensor bound in and the display name attached — if and only if that
probe returns a non-`None` value without raising. -/
theorem C3_theorem (waves : List Nat) (sensor : String) (debug allowOpt : Bool)
    (kwargs : Params) (folder fname : String) (m : Sym)
    (hn : strContains fname "model" = true) (ha : m.hasDefaultAttr = true)
    (hgate : (m.has_default || allowOpt) = true) :
    (get_methods waves sensor [(folder, [(fname, m)])] debug allowOpt kwargs).probes =
      [⟨folder, fname, onesMat 1 waves.length, waves, truncDash sensor,
        resolvedKw m kwargs⟩] ∧
    ((∃ v, m.run (onesMat 1 waves.length) waves (truncDash sensor) (resolvedKw m kwargs)
        = .ok (some v)) ↔
      (get_methods waves sensor [(folder, [(fname, m)])] debug allowOpt kwargs).methods =
        [(displayName m folder, ⟨m, truncDash sensor, displayName m folder⟩)]) ∧
    (¬(∃ v, m.run (onesMat 1 waves.length) waves (truncDash sensor) (resolvedKw m kwargs)
        = .ok (some v)) ↔
      (get_methods waves sensor [(folder, [(fname, m)])] debug allowOpt kwargs).methods
        = []) := by
  unfold get_methods
  have hfl : flatten [(folder, [(fname, m)])] = [(folder, fname, m)] := by
    simp [flatten]
  rw [hfl]
  simp only [discLoop]
  cases hr : m.run (onesMat 1 waves.length) waves (truncDash sensor) (resolvedKw m kwargs) with
  | ok o =>
    cases o with
    | some v =>
      rw [stepCore_ok_some waves (truncDash sensor) debug allowOpt folder fname m [] kwargs
        v hn ha hgate hr]
      refine ⟨by simp [discLoop], ?_, ?_⟩
      · constructor
        · intro _
          simp [discLoop, dictUpdate_nil]
        · intro _
          exact ⟨v, rfl⟩
      · constructor
        · intro hne
          exact absurd ⟨v, rfl⟩ hne
        · intro hempty
          exfalso
          simp [discLoop, dictUpdate_nil] at hempty
    | none =>
      rw [stepCore_ok_none waves (truncDash sensor) debug allowOpt folder fname m [] kwargs
        hn ha hgate hr]
      refine ⟨by simp [discLoop], ?_, ?_⟩
      · constructor
        · rintro ⟨v, hv⟩
          simp at hv
        · intro habs
          exfalso
          simp [discLoop] at habs
      · constructor
        · intro _
          simp [discLoop]
        · rintro _ ⟨v, hv⟩
          simp at hv
  | error e =>
    rw [stepCore_error waves (truncDash sensor) debug allowOpt folder fname m [] kwargs
      e hn ha hgate hr]
    refine ⟨by simp [discLoop], ?_, ?_⟩
    · constructor
      · rintro ⟨v, hv⟩
        simp at hv
      · intro habs
        exfalso
        simp [discLoop] at habs
    · constructor
      · intro _
        simp [discLoop]
      · rintro _ ⟨v, hv⟩
        simp at hv

/-- C3 witness: the characterization evaluated on the concrete candidate
`symC3`, whose probe succeeds, so it is registered under the folder name
with the sensor bound in. -/
theorem C3_witness :
    (get_methods [443] "OLI" [("alg", [("model", symC3)])] true false []).probes =
      [⟨"alg", "model", onesMat 1 1, [443], truncDash "OLI", resolvedKw symC3 []⟩] ∧
    ((∃ v, symC3.run (onesMat 1 1) [443] (truncDash "OLI") (resolvedKw symC3 [])
        = .ok (some v)) ↔
      (get_methods [443] "OLI" [("alg", [("model", symC3)])] true false []).methods =
        [(displayName symC3 "alg", ⟨symC3, truncDash "OLI", displayName symC3 "alg"⟩)]) ∧
    (¬(∃ v, symC3.run (onesMat 1 1) [443] (truncDash "OLI") (resolvedKw symC3 [])
        = .ok (some v)) ↔
      (get_methods [443] "OLI" [("alg", [("model", symC3)])] true false []).methods = []) :=
  C3_theorem [443] "OLI" true false [] "alg" "model" symC3 rfl rfl rfl

/-! ### Claim C4 -/

/-- C4 counterexample: with optimization-mode disabled, a candidate whose
`has_default` is false (`symC4b`, display name "X") is skipped — yet its
display name "X" DOES appear in the returned registry, because another
candidate in the same folder (`symC4a`) registers under the same display
name.  (The skipped candidate itself is never probed; see the amended
theorem.) -/
theorem C4_counterexample :
    symC4b.has_default = false ∧ displayName symC4b "alg" = "X" ∧
    ((get_methods [443] "OLI" [("alg", [("model_a", symC4a), ("model_b", symC4b)])]
        true false []).methods.map Prod.fst) = ["X"] :=
  ⟨rfl, rfl, rfl⟩

/-- C4 (amended): with optimization-mode disabled, a candidate carrying
the attribute but with `has_default` false is never probed and contributes
nothing: the registry, kwargs and probe trace equal those of the walk with
the candidate removed (so its display name can appear only if some other
candidate registers it), and — when its symbol name contains "model" and
debug is set — the "requires optimization" diagnostic is printed for its
folder. -/
theorem C4_theorem (waves : List Nat) (sensor : String) (debug : Bool)
    (pre post : List (String × String × Sym)) (folder fname : String) (m : Sym)
    (ms0 : List (String × RegEntry)) (kw0 : Params)
    (ha : m.hasDefaultAttr = true) (hd : m.has_default = false) :
    (discLoop waves sensor debug false (pre ++ (folder, fname, m) :: post) ms0 kw0).methods =
      (discLoop waves sensor debug false (pre ++ post) ms0 kw0).methods ∧
    (discLoop waves sensor debug false (pre ++ (folder, fname, m) :: post) ms0 kw0).kwargs =
      (discLoop waves sensor debug false (pre ++ post) ms0 kw0).kwargs ∧
    (discLoop waves sensor debug false (pre ++ (folder, fname, m) :: post) ms0 kw0).probes =
      (discLoop waves sensor debug false (pre ++ post) ms0 kw0).probes ∧
    (strContains fname "model" = true → debug = true →
      ∃ o1 o2, (discLoop waves sensor debug false
          (pre ++ (folder, fname, m) :: post) ms0 kw0).out =
        o1 ++ s!"{folder} requires optimization" :: o2) := by
  rw [discLoop_append waves sensor debug false pre ((folder, fname, m) :: post) ms0 kw0,
    discLoop_append waves sensor debug false pre post ms0 kw0]
  simp only [discLoop]
  rw [stepCore_skip waves sensor debug folder fname m
    (discLoop waves sensor debug false pre ms0 kw0).methods
    (discLoop waves sensor debug false pre ms0 kw0).kwargs ha hd]
  refine ⟨rfl, rfl, by simp, ?_⟩
  intro hn hdbg
  subst hdbg
  refine ⟨(discLoop waves sensor true false pre ms0 kw0).out,
    (discLoop waves sensor true false post
      (discLoop waves sensor true false pre ms0 kw0).methods
      (discLoop waves sensor true false pre ms0 kw0).kwargs).out, ?_⟩
  simp [hn]

/-- C4 witness: the amended statement evaluated on `symC4b` placed after
`symC4a`; the walk with and without `symC4b` yields the same registry. -/
theorem C4_witness :
    (discLoop [443] "OLI" true false
        ([("alg", "model_a", symC4a)] ++ ("alg", "model_b", symC4b) :: []) [] []).methods =
      (discLoop [443] "OLI" true false ([("alg", "model_a", symC4a)] ++ []) [] []).methods ∧
    (discLoop [443] "OLI" true false
        ([("alg", "model_a", symC4a)] ++ ("alg", "model_b", symC4b) :: []) [] []).kwargs =
      (discLoop [443] "OLI" true false ([("alg", "model_a", symC4a)] ++ []) [] []).kwargs ∧
    (discLoop [443] "OLI" true false
        ([("alg", "model_a", symC4a)] ++ ("alg", "model_b", symC4b) :: []) [] []).probes =
      (discLoop [443] "OLI" true false ([("alg", "model_a", symC4a)] ++ []) [] []).probes ∧
    (strContains "model_b" "model" = true → true = true →
      ∃ o1 o2, (discLoop [443] "OLI" true false
          ([("alg", "model_a", symC4a)] ++ ("alg", "model_b", symC4b) :: []) [] []).out =
        o1 ++ s!"alg requires optimization" :: o2) :=
  C4_theorem [443] "OLI" true [("alg", "model_a", symC4a)] [] "alg" "model_b" symC4b
    [] [] rfl rfl

/-! ### Claim C5 -/

/-- C5: when a gated candidate's probe raises, the error is not
propagated: discovery records the probe, logs the algorithm (folder) name
with the error text exactly when debug is set, leaves the registry
unchanged, and the walk continues over all remaining candidates from that
unchanged registry (so they are still evaluated and may still be
registered). -/
theorem C5_theorem (waves : List Nat) (sensor : String) (debug allowOpt : Bool)
    (pre post : List (String × String × Sym)) (folder fname : String) (m : Sym)
    (ms0 : List (String × RegEntry)) (kw0 : Params) (e : String)
    (hn : strContains fname "model" = true) (ha : m.hasDefaultAttr = true)
    (hgate : (m.has_default || allowOpt) = true)
    (hr : m.run (onesMat 1 waves.length) waves sensor
        (resolvedKw m (discLoop waves sensor debug allowOpt pre ms0 kw0).kwargs)
      = .error e) :
    discLoop waves sensor debug allowOpt (pre ++ (folder, fname, m) :: post) ms0 kw0 =
      (let r := discLoop waves sensor debug allowOpt pre ms0 kw0
       let kw2 := resolvedKw m r.kwargs
       let t := discLoop waves sensor debug allowOpt post r.methods kw2
       ⟨t.methods, t.kwargs,
        r.out ++ ((if debug then [s!"Exception for function {folder}: {e}"] else []) ++ t.out),
        r.probes ++
          (⟨folder, fname, onesMat 1 waves.length, waves, sensor, kw2⟩ :: t.probes)⟩) := by
  rw [discLoop_append waves sensor debug allowOpt pre ((folder, fname, m) :: post) ms0 kw0]
  simp only [discLoop]
  rw [stepCore_error waves sensor debug allowOpt folder fname m
    (discLoop waves sensor debug allowOpt pre ms0 kw0).methods
    (discLoop waves sensor debug allowOpt pre ms0 kw0).kwargs e hn ha hgate hr]
  simp

/-- C5 witness: the raising candidate `symC5e` is excluded while the later
candidate `symC5o` is still walked from the unchanged registry. -/
theorem C5_witness :
    discLoop [443] "OLI" true false
        ([] ++ ("alg1", "model", symC5e) :: [("alg2", "model", symC5o)]) [] [] =
      (let r := discLoop [443] "OLI" true false [] ([] : List (String × RegEntry)) []
       let kw2 := resolvedKw symC5e r.kwargs
       let t := discLoop [443] "OLI" true false [("alg2", "model", symC5o)] r.methods kw2
       ⟨t.methods, t.kwargs,
        r.out ++ ((if true then [s!"Exception for function alg1: boom"] else []) ++ t.out),
        r.probes ++
          (⟨"alg1", "model", onesMat 1 1, [443], "OLI", kw2⟩ :: t.probes)⟩) :=
  C5_theorem [443] "OLI" true false [] [("alg2", "model", symC5o)] "alg1" "model" symC5e
    [] [] "boom" rfl rfl rfl rfl

/-! ### Claim C6 -/

/-- C6: when the test data has more feature columns than available
wavelengths, `bench_product` fails with the band-count mismatch message —
for every plugin layout whatsoever, so before any discovery probe or
registered algorithm can execute. -/
theorem C6_theorem (waves : List Nat) (layoutOf : String → Layout) (sensor : String)
    (x_test : Mat) (y_test : Option Mat) (slices : Option (List (String × Sl)))
    (silent : Bool) (product : String) (method : Option String)
    (hy : ¬(silent = false ∧ y_test = none)) (hcols : waves.length < cols x_test) :
    bench_product waves layoutOf sensor x_test y_test slices silent product method =
      .error (bandMsg sensor (cols x_test) waves.length) := by
  unfold bench_product
  rw [if_neg hy, if_pos hcols]

/-- C6 witness: two feature columns against a single wavelength fail with
the mismatch message (layout irrelevant). -/
theorem C6_witness :
    bench_product [443] layC7 "OLI" [[.fin 1, .fin 2]] none none true "chl" none =
      .error (bandMsg "OLI" 2 1) :=
  C6_theorem [443] layC7 "OLI" [[.fin 1, .fin 2]] none none true "chl" none
    (by simp) (by decide)

/-! ### Claim C7 -/

/-- C7: requesting a method name that is a registry key yields (when the
run completes) a result with exactly one entry, keyed by that name;
requesting a name that is not a registry key fails with the message
enumerating the registry's valid names, before any entry is invoked. -/
theorem C7_theorem (waves : List Nat) (layoutOf : String → Layout) (sensor : String)
    (x_test : Mat) (y_test : Option Mat) (slices : Option (List (String × Sl)))
    (silent : Bool) (product : String) (nm : String) :
    (∀ res, nm ∈ registryKeys waves layoutOf sensor product →
      bench_product waves layoutOf sensor x_test y_test slices silent product (some nm)
        = .ok res →
      ∃ v, res = [(nm, v)]) ∧
    (nm ∉ registryKeys waves layoutOf sensor product →
      ¬(silent = false ∧ y_test = none) → cols x_test ≤ waves.length →
      bench_product waves layoutOf sensor x_test y_test slices silent product (some nm) =
        .error (unknownMsg nm (registryKeys waves layoutOf sensor product))) := by
  constructor
  · intro res hmem hok
    simp only [bench_product] at hok
    by_cases h1 : silent = false ∧ y_test = none
    · rw [if_pos h1] at hok
      exact Except.noConfusion hok
    · rw [if_neg h1] at hok
      by_cases h2 : waves.length < cols x_test
      · rw [if_pos h2] at hok
        exact Except.noConfusion hok
      · rw [if_neg h2, if_pos hmem] at hok
        have hnd : ((registryOf waves layoutOf sensor product).map Prod.fst).Nodup := by
          unfold registryOf get_methods
          exact discLoop_nodup _ _ _ _ _ _ _ (by simp)
        exact benchLoop_single waves product silent y_test slices x_test nm
          (registryOf waves layoutOf sensor product) hnd hmem res hok
  · intro hmem h1 h2
    simp only [bench_product]
    rw [if_neg h1, if_neg (by omega), if_neg hmem]

/-- C7 witness: the registry built from `layC7` has the single key "alg";
requesting "alg" returns the single-entry result, requesting "zzz" fails
with the enumerating message. -/
theorem C7_witness :
    (∃ v, [("alg", some [[RVal.fin 4]])] = [("alg", v)]) ∧
    bench_product [443] layC7 "OLI" [[.fin 1]] none none true "chl" (some "zzz") =
      .error (unknownMsg "zzz" (registryKeys [443] layC7 "OLI" "chl")) := by
  constructor
  · exact (C7_theorem [443] layC7 "OLI" [[.fin 1]] none none true "chl" "alg").1
      [("alg", some [[RVal.fin 4]])] (by decide) rfl
  · exact (C7_theorem [443] layC7 "OLI" [[.fin 1]] none none true "chl" "zzz").2
      (by decide) (by simp) (by decide)

/-! ### Claim C8 -/

/-- C8: (1) every element of every estimate returned by a successful
chlorophyll run is finite and non-negative; (2) the estimate
`[-1.0, NaN, 3.2]` is returned as `[0.0, 0.0, 3.2]`; (3) for any other
product the estimate is returned exactly as the algorithm produced it. -/
theorem C8_theorem :
    (∀ (waves : List Nat) (layoutOf : String → Layout) (sensor : String) (x_test : Mat)
      (y_test : Option Mat) (slices : Option (List (String × Sl))) (silent : Bool)
      (method : Option String) (res : List (String × Option Mat)),
      bench_product waves layoutOf sensor x_test y_test slices silent "chl" method
        = .ok res →
      ∀ p ∈ res, ∀ mm, p.2 = some mm → ∀ row ∈ mm, ∀ v ∈ row,
        v.isfinite = true ∧ v.ltzero = false) ∧
    bench_product [443, 490, 555] layC8 "OLI" [[.fin 1]] none none true "chl" none =
      .ok [("alg", some [[.fin 0, .fin 0, .fin (mkRat 16 5)]])] ∧
    (∀ (waves : List Nat) (layoutOf : String → Layout) (sensor : String) (x_test : Mat)
      (y_test : Option Mat) (slices : Option (List (String × Sl))) (silent : Bool)
      (product : String) (folder fname : String) (m : Sym) (pv est : Mat),
      product ≠ "chl" →
      ¬(silent = false ∧ y_test = none) → cols x_test ≤ waves.length →
      layoutOf product = [(folder, [(fname, m)])] →
      strContains fname "model" = true → m.hasDefaultAttr = true → m.has_default = true →
      m.run (onesMat 1 waves.length) waves (truncDash sensor) [("tol", 15)]
        = .ok (some pv) →
      m.run x_test waves (truncDash sensor) [("tol", 15)] = .ok (some est) →
      scoreCheck product silent y_test slices (some est) = .ok () →
      bench_product waves layoutOf sensor x_test y_test slices silent product none =
        .ok [(displayName m folder, some est)]) := by
  refine ⟨?_, rfl, ?_⟩
  · intro waves layoutOf sensor x_test y_test slices silent method res hok p hp mm hmm
      row hrow v hv
    have tail : ∀ meth, benchLoop waves "chl" silent y_test slices x_test meth
        (registryOf waves layoutOf sensor "chl") = .ok res →
        v.isfinite = true ∧ v.ltzero = false := by
      intro meth hloop
      obtain ⟨m0, hm0⟩ := benchLoop_chl_ok waves silent y_test slices x_test meth
        (registryOf waves layoutOf sensor "chl") res hloop p hp
      rw [hm0] at hmm
      injection hmm with hmm'
      rw [← hmm'] at hrow
      exact mem_clampMat row hrow v hv
    cases method with
    | none =>
      simp only [bench_product] at hok
      by_cases h1 : silent = false ∧ y_test = none
      · rw [if_pos h1] at hok
        exact absurd hok (by simp)
      · rw [if_neg h1] at hok
        by_cases h2 : waves.length < cols x_test
        · rw [if_pos h2] at hok
          exact absurd hok (by simp)
        · rw [if_neg h2] at hok
          exact tail none hok
    | some nm =>
      simp only [bench_product] at hok
      by_cases h1 : silent = false ∧ y_test = none
      · rw [if_pos h1] at hok
        exact absurd hok (by simp)
      · rw [if_neg h1] at hok
        by_cases h2 : waves.length < cols x_test
        · rw [if_pos h2] at hok
          exact absurd hok (by simp)
        · rw [if_neg h2] at hok
          by_cases hmem : nm ∈ registryKeys waves layoutOf sensor "chl"
          · rw [if_pos hmem] at hok
            exact tail (some nm) hok
          · rw [if_neg hmem] at hok
            exact absurd hok (by simp)
  · intro waves layoutOf sensor x_test y_test slices silent product folder fname m pv est
      hprod hs hc hl hn ha hd hp hx hsc
    rw [bench_product_single waves layoutOf sensor x_test y_test slices silent product none
      folder fname m pv hs hc hl hn ha hd hp (Or.inl rfl)]
    simp [benchEntry, hx, postProc, hprod, hsc]

/-- C8 witness: the clamping property applied to the concrete chlorophyll
run of `symC8`, and the passthrough applied to the concrete
suspended-solids run of `symC8t`. -/
theorem C8_witness :
    ((RVal.fin 0).isfinite = true ∧ (RVal.fin 0).ltzero = false) ∧
    bench_product [443] layC8t "OLI" [[.fin 1]] none none true "tss" none =
      .ok [(displayName symC8t "alg", some [[.fin 5]])] := by
  constructor
  · exact C8_theorem.1 [443, 490, 555] layC8 "OLI" [[.fin 1]] none none true none
      [("alg", some [[.fin 0, .fin 0, .fin (mkRat 16 5)]])] rfl
      ("alg", some [[.fin 0, .fin 0, .fin (mkRat 16 5)]]) (by simp)
      [[.fin 0, .fin 0, .fin (mkRat 16 5)]] rfl
      [.fin 0, .fin 0, .fin (mkRat 16 5)] (by simp) (.fin 0) (by simp)
  · exact C8_theorem.2.2 [443] layC8t "OLI" [[.fin 1]] none none true "tss"
      "alg" "model" symC8t [[.fin 5]] [[.fin 5]]
      (by decide) (by simp) (by decide) rfl rfl rfl rfl rfl rfl rfl

/-! ### Claim C9 -/

theorem dictUpdate_nil_right {α : Type} (b : List (String × α)) : dictUpdate b [] = b := by
  unfold dictUpdate
  simp only [List.filter_nil, List.append_nil]
  have hmap : b.map (updEntry []) = b.map id :=
    List.map_congr_left (fun p _ => by unfold updEntry; simp)
  rw [hmap, List.map_id]

theorem lookup_ite {α : Type} (c : Prop) [Decidable c] (k : String)
    (l : List (String × α)) :
    List.lookup k (if c then l else []) = if c then List.lookup k l else none := by
  by_cases hc : c <;> simp [hc]

/-- C9: the analytic-inversion orchestrator runs exactly when some slice
key begins with 'a' or 'b' and is not a derivative/special key (contains
no '*' and no "ad"); the registry-based orchestrator runs for "chl" when
that key is present (followed by the ML variant when enabled) and for
"tss" when that key is present; and the returned mapping is the union of
the pieces with later-run variants winning on key collisions. -/
theorem C9_theorem (waves : List Nat) (layoutOf : String → Layout) (sensor : String)
    (x_test : Mat) (y_test : Option Mat) (slices : List (String × Sl)) (silent : Bool)
    (with_ml : Bool) (qaaBench mlBench : Except String (List (String × Option Mat)))
    (qr mr cr tr : List (String × Option Mat))
    (hne : ∀ p ∈ slices, p.1 ≠ "")
    (hq : qaaBench = .ok qr) (hm : mlBench = .ok mr)
    (hc : bench_product waves layoutOf sensor x_test y_test (some slices) silent
      "chl" none = .ok cr)
    (ht : bench_product waves layoutOf sensor x_test y_test (some slices) silent
      "tss" none = .ok tr) :
    (qaaCond slices = true ↔ ∃ k ∈ slices.map Prod.fst,
      (k.data.head? = some 'a' ∨ k.data.head? = some 'b') ∧
      strContains k "*" = false ∧ strContains k "ad" = false) ∧
    ∃ B, run_benchmarks waves layoutOf sensor x_test y_test slices silent with_ml
        qaaBench mlBench = .ok B ∧
      ∀ k, List.lookup k B =
        firstOf (if (slices.map Prod.fst).contains "tss" = true
            then List.lookup k tr else none)
          (firstOf (if ((slices.map Prod.fst).contains "chl" = true ∧ with_ml = true)
              then List.lookup k mr else none)
            (firstOf (if (slices.map Prod.fst).contains "chl" = true
                then List.lookup k cr else none)
              (if qaaCond slices = true then List.lookup k qr else none))) := by
  constructor
  · have hiff : qaaCond slices = true ↔ ∃ p ∈ slices,
        ((p.1.data.head? == some 'a' || p.1.data.head? == some 'b')
          && !(strContains p.1 "*") && !(strContains p.1 "ad")) = true := by
      unfold qaaCond
      rw [decide_eq_true_iff]
      constructor
      · intro hlen
        have hne' : slices.filter (fun p =>
            (p.1.data.head? == some 'a' || p.1.data.head? == some 'b')
            && !(strContains p.1 "*") && !(strContains p.1 "ad")) ≠ [] := by
          intro hx
          rw [hx] at hlen
          simp at hlen
        obtain ⟨x, hx⟩ := List.exists_mem_of_ne_nil _ hne'
        have hmf := List.mem_filter.mp hx
        exact ⟨x, hmf.1, hmf.2⟩
      · rintro ⟨p, hp, hf⟩ hlen
        rw [List.length_eq_zero] at hlen
        have hin : p ∈ slices.filter (fun p =>
            (p.1.data.head? == some 'a' || p.1.data.head? == some 'b')
            && !(strContains p.1 "*") && !(strContains p.1 "ad")) :=
          List.mem_filter.mpr ⟨hp, hf⟩
        rw [hlen] at hin
        simp at hin
    rw [hiff]
    constructor
    · rintro ⟨p, hp, hf⟩
      refine ⟨p.1, List.mem_map.mpr ⟨p, hp, rfl⟩, ?_⟩
      simp only [Bool.and_eq_true, Bool.or_eq_true, beq_iff_eq, Bool.not_eq_true'] at hf
      exact ⟨hf.1.1, hf.1.2, hf.2⟩
    · rintro ⟨k, hk, hprops⟩
      obtain ⟨p, hp, hpk⟩ := List.mem_map.mp hk
      refine ⟨p, hp, ?_⟩
      subst hpk
      obtain ⟨hab, h1, h2⟩ := hprops
      simp only [Bool.and_eq_true, Bool.or_eq_true, beq_iff_eq, Bool.not_eq_true']
      exact ⟨⟨hab, h1⟩, h2⟩
  · have hB : run_benchmarks waves layoutOf sensor x_test y_test slices silent with_ml
        qaaBench mlBench = .ok
        (dictUpdate (dictUpdate (dictUpdate
          (dictUpdate [] (if qaaCond slices = true then qr else []))
          (if (slices.map Prod.fst).contains "chl" = true then cr else []))
          (if ((slices.map Prod.fst).contains "chl" = true ∧ with_ml = true)
            then mr else []))
          (if (slices.map Prod.fst).contains "tss" = true then tr else [])) := by
      by_cases bq : qaaCond slices = true <;>
        by_cases bc : "chl" ∈ slices.map Prod.fst <;>
        by_cases bm : with_ml = true <;>
        by_cases bt : "tss" ∈ slices.map Prod.fst <;>
        simp [run_benchmarks, hq, hc, ht, hm, bq, bc, bm, bt, dictUpdate_nil_right]
    refine ⟨_, hB, ?_⟩
    intro k
    rw [lookup_dictUpdate, lookup_dictUpdate, lookup_dictUpdate, lookup_dictUpdate]
    simp only [lookup_ite]
    simp [firstOf_none]

/-- C9 witness: with the single slice key "chl", only the chlorophyll
orchestrator runs, and the merged lookup matches the overlay. -/
theorem C9_witness :
    (qaaCond [("chl", Sl.all)] = true ↔ ∃ k ∈ ([("chl", Sl.all)].map Prod.fst),
      (k.data.head? = some 'a' ∨ k.data.head? = some 'b') ∧
      strContains k "*" = false ∧ strContains k "ad" = false) ∧
    ∃ B, run_benchmarks [] (fun _ => []) "OLI" [] none [("chl", Sl.all)] true false
        (.ok []) (.ok []) = .ok B ∧
      ∀ k, List.lookup k B =
        firstOf (if ([("chl", Sl.all)].map Prod.fst).contains "tss" = true
            then List.lookup k ([] : List (String × Option Mat)) else none)
          (firstOf (if (([("chl", Sl.all)].map Prod.fst).contains "chl" = true
                ∧ false = true)
              then List.lookup k ([] : List (String × Option Mat)) else none)
            (firstOf (if ([("chl", Sl.all)].map Prod.fst).contains "chl" = true
                then List.lookup k ([] : List (String × Option Mat)) else none)
              (if qaaCond [("chl", Sl.all)] = true
                then List.lookup k ([] : List (String × Option Mat)) else none))) :=
  C9_theorem [] (fun _ => []) "OLI" [] none [("chl", Sl.all)] true false
    (.ok []) (.ok []) [] [] [] [] (by decide) rfl rfl rfl rfl

/-! ### Claim C10 -/

/-- C10: discovery truncates the sensor at the first '-' before probing:
the discovery outcome for `s ++ "-" ++ t` equals that for `s`, every
registered callable has the truncated sensor bound in, and every probe is
performed with the truncated sensor. -/
theorem C10_theorem (waves : List Nat) (s t : String) (layout : Layout)
    (debug allowOpt : Bool) (kwargs : Params) :
    get_methods waves (s ++ "-" ++ t) layout debug allowOpt kwargs =
      get_methods waves s layout debug allowOpt kwargs ∧
    (∀ p ∈ (get_methods waves s layout debug allowOpt kwargs).methods,
      p.2.sensor = truncDash s) ∧
    (∀ pc ∈ (get_methods waves s layout debug allowOpt kwargs).probes,
      pc.sensor = truncDash s) := by
  refine ⟨?_, ?_, ?_⟩
  · unfold get_methods
    rw [truncDash_append]
  · exact (discLoop_sensor_inv waves (truncDash s) debug allowOpt (flatten layout) []
      kwargs (by simp)).1
  · exact (discLoop_sensor_inv waves (truncDash s) debug allowOpt (flatten layout) []
      kwargs (by simp)).2

/-- C10 witness: the registry for "OLI-L2" equals the registry for "OLI",
and the entry registered from `symC10` carries the truncated sensor. -/
theorem C10_witness :
    get_methods [443] ("OLI" ++ "-" ++ "L2") layC10 true false [] =
      get_methods [443] "OLI" layC10 true false [] ∧
    (⟨symC10, "OLI", "alg"⟩ : RegEntry).sensor = truncDash "OLI" := by
  have hmm : (get_methods [443] "OLI" layC10 true false []).methods =
      [("alg", ⟨symC10, "OLI", "alg"⟩)] := rfl
  refine ⟨(C10_theorem [443] "OLI" "L2" layC10 true false []).1, ?_⟩
  exact (C10_theorem [443] "OLI" "L2" layC10 true false []).2.1
    ("alg", ⟨symC10, "OLI", "alg"⟩) (by rw [hmm]; exact List.mem_singleton.mpr rfl)

end MDN
